import Mathlib

/-!
Verification of the PolyAgents multi-agent conversation orchestrator.

This file gives a shallow embedding of the core of the system
(consensus engine, orchestrator turn loop, circuit breaker, retry
logic, rate limiter, input sanitisation, and the Redis message bus
read path) and proves the behavioural claims about it.

External collaborators (the sentence-transformer embedder, the
k-means clusterer, the local summarising/fusing LLM, the Redis
server and the wall clock) are modelled as explicit parameters, as
the specification treats them as capabilities.  Machine floats are
modelled as rationals; wall-clock instants are rationals.
-/

namespace PolyAgents

/-- Mirror of `app/models.py` `Message` (pydantic model).  The
`timestamp` is kept as an opaque string and `metadata` as an
association list; neither influences any verified claim. -/
structure Message where
  id : String
  conversation_id : String
  sender : String
  content : String
  turn : Nat
  timestamp : String
  metadata : List (String × String)
deriving DecidableEq, Repr

/-- Mirror of `app/models.py` `ConsensusResult`.  The float
`confidence_score` is modelled as an optional rational. -/
structure ConsensusResult where
  final_answer : String
  winning_votes : Nat
  total_votes : Nat
  consensus_method : String
  confidence_score : Option Rat
deriving DecidableEq, Repr

/-- Placeholder message used as the default of `List.headD` /
`List.getD`; the Python source never hits these defaults on the
verified paths. -/
def dummyMessage : Message :=
  { id := "", conversation_id := "", sender := "", content := "",
    turn := 0, timestamp := "", metadata := [] }

/-- Code points stripped by Python `str.strip()` (characters for
which `str.isspace()` holds). -/
def pyWhitespaceCodes : List Nat :=
  [9, 10, 11, 12, 13, 28, 29, 30, 31, 32, 133, 160, 5760,
   8192, 8193, 8194, 8195, 8196, 8197, 8198, 8199, 8200, 8201, 8202,
   8232, 8233, 8239, 8287, 12288]

/-- Python `str.isspace` on a single character. -/
def isPyWhitespace (c : Char) : Bool :=
  pyWhitespaceCodes.contains c.toNat

/-- Python `str.strip()` on a list of characters. -/
def pyStripList (l : List Char) : List Char :=
  ((l.dropWhile isPyWhitespace).reverse.dropWhile isPyWhitespace).reverse

/-- Python `str.strip()`. -/
def pyStrip (s : String) : String :=
  String.mk (pyStripList s.data)

/-- Mirror of `InputValidator.sanitize_text` in `app/security.py`:
falsy input gives the empty string; truncate to `max_length`
code points; drop control characters other than newline, carriage
return and tab; strip surrounding whitespace. -/
def sanitize_text (text : String) (max_length : Nat) : String :=
  if text = "" then ""
  else
    let t1 := if text.length > max_length then String.mk (text.data.take max_length) else text
    let t2 := String.mk (t1.data.filter
      (fun c => decide (32 ≤ c.toNat) || ['\n', '\r', '\t'].contains c))
    pyStrip t2

/-- First element of Python `s.split('\n')`: the characters up to
the first newline. -/
def firstLine (s : String) : String :=
  String.mk (s.data.takeWhile (fun c => c != '\n'))

/-- Python `str.startswith`: code-point prefix test. -/
def pyStartsWith (s pre : String) : Bool :=
  pre.data.isPrefixOf s.data

/-- The *ballot* of a message: `msg.content.strip().split('\n')[0]`
from `ConsensusEngine._majority_vote_consensus`. -/
def ballot (m : Message) : String :=
  firstLine (pyStrip m.content)

/-- Keys of a Python `Counter`/`dict` built by insertion, in first
occurrence order. -/
def firstUniques {α : Type} [DecidableEq α] : List α → List α
  | [] => []
  | a :: as => a :: (firstUniques as).filter (fun x => x != a)

/-- Maximum of a list of naturals, as Python `max` over counts
(`0` on the empty list, which the source never passes). -/
def natMaxList (l : List Nat) : Nat := l.foldl max 0

/-- The ballots of a message list, in input order. -/
def ballotsOf (msgs : List Message) : List String := msgs.map ballot

/-- `max(vote_counts.values())` of `_majority_vote_consensus`. -/
def maxVotes (msgs : List Message) : Nat :=
  natMaxList ((ballotsOf msgs).map (fun b => (ballotsOf msgs).count b))

/-- `top_options` of `_majority_vote_consensus`: the ballots whose
count attains the maximum, in `Counter` insertion order. -/
def topOptions (msgs : List Message) : List String :=
  (firstUniques (ballotsOf msgs)).filter
    (fun b => (ballotsOf msgs).count b == maxVotes msgs)

/-- The comparison used by the Python tie-break
`sort(key=lambda x: (-x[0], x[1]))` on `(len(content), content)`
triples: descending length, then ascending content. -/
def tieKeyLE (a b : Message) : Bool :=
  decide (b.content.length < a.content.length) ||
    (decide (a.content.length = b.content.length) && decide (a.content ≤ b.content))

/-- Insert into a sorted list, keeping earlier elements first on
ties (the stability Python `list.sort` guarantees). -/
def insertLE {α : Type} (le : α → α → Bool) (a : α) : List α → List α
  | [] => [a]
  | b :: bs => if le a b then a :: b :: bs else b :: insertLE le a bs

/-- Stable insertion sort, the model of Python `list.sort`. -/
def insertionSort {α : Type} (le : α → α → Bool) : List α → List α
  | [] => []
  | a :: as => insertLE le a (insertionSort le as)

/-- The `tie_breaker_candidates` list of
`_majority_vote_consensus`: messages grouped by tied ballot, groups
in `Counter` order, each group in input order. -/
def tieCandidates (msgs : List Message) : List Message :=
  (topOptions msgs).flatMap (fun o => msgs.filter (fun m => ballot m == o))

/-- The `single_response` early return shared by every consensus
algorithm when exactly one message is given. -/
def singleResponse (m : Message) : ConsensusResult :=
  { final_answer := m.content, winning_votes := 1, total_votes := 1,
    consensus_method := "single_response", confidence_score := none }

/-- Mirror of `ConsensusEngine._majority_vote_consensus`.  In the
clear-winner branch the winner is `message_map[winning_option][0]`:
the first message in input order whose ballot is the winning one;
in the tie branch the winner is the head of the sorted
`tie_breaker_candidates`. -/
def majorityVoteConsensus (msgs : List Message) : ConsensusResult :=
  if msgs.length = 1 then singleResponse (msgs.headD dummyMessage)
  else if (topOptions msgs).length = 1 then
    { final_answer :=
        ((msgs.filter (fun m => ballot m == (topOptions msgs).headD "")).headD
          dummyMessage).content,
      winning_votes := maxVotes msgs, total_votes := msgs.length,
      consensus_method := "majority_vote_with_tiebreak", confidence_score := none }
  else
    { final_answer := ((insertionSort tieKeyLE (tieCandidates msgs)).headD
        dummyMessage).content,
      winning_votes := maxVotes msgs, total_votes := msgs.length,
      consensus_method := "majority_vote_with_tiebreak", confidence_score := none }

/-- Modelled from the spec: the tie-break winner as §4.6 words it —
among messages whose ballot is in the tied set (in input order),
sort by descending content length then ascending content and take
the first. -/
def specTiebreakWinner (msgs : List Message) : Message :=
  (insertionSort tieKeyLE
    (msgs.filter (fun m => (topOptions msgs).contains (ballot m)))).headD dummyMessage

/-- The external ML capabilities used by
`ConsensusEngine._semantic_consensus`: the sentence-transformer
`encode`, and sklearn `KMeans.fit` exposing `labels_` and
`cluster_centers_` (a function of the embeddings and `n_clusters`). -/
structure Clusterer where
  encode : List String → List (List Rat)
  labels : List (List Rat) → Nat → List Nat
  center : List (List Rat) → Nat → Nat → List Rat

/-- The `n_clusters` computation of `_semantic_consensus`. -/
def chooseK (n : Nat) : Nat :=
  let k := min (n / 2) 5
  let k := if k < 2 then 2 else k
  if k > n then n else k

/-- Squared Euclidean distance; `pairwise_distances_argmin_min`
minimises true distance, and minimising the square is equivalent. -/
def sqDist (u v : List Rat) : Rat :=
  (u.zip v).foldl (fun acc p => acc + (p.1 - p.2) ^ 2) 0

/-- Index search of `np.argmin`: the first index attaining the
minimum. -/
def argminIdxAux : List Rat → Nat → Nat → Rat → Nat
  | [], _, best, _ => best
  | x :: xs, i, best, bestVal =>
      if x < bestVal then argminIdxAux xs (i + 1) i x
      else argminIdxAux xs (i + 1) best bestVal

/-- `np.argmin` over a list of distances (`0` on the empty list). -/
def argminIdx : List Rat → Nat
  | [] => 0
  | x :: xs => argminIdxAux xs 1 0 x

/-- `Counter(labels).most_common(1)[0][0]`: the most frequent value,
ties resolved towards the first occurrence. -/
def mostCommon (l : List Nat) : Nat :=
  ((firstUniques l).filter
    (fun b => l.count b == natMaxList (l.map (fun x => l.count x)))).headD 0

/-- The `embeddings` local of `_semantic_consensus`. -/
def semEmbeddings (cl : Clusterer) (msgs : List Message) : List (List Rat) :=
  cl.encode (msgs.map Message.content)

/-- The `kmeans.labels_` of `_semantic_consensus`. -/
def semLabels (cl : Clusterer) (msgs : List Message) : List Nat :=
  cl.labels (semEmbeddings cl msgs) (chooseK msgs.length)

/-- The `largest_cluster_label` local of `_semantic_consensus`. -/
def semLargest (cl : Clusterer) (msgs : List Message) : Nat :=
  mostCommon (semLabels cl msgs)

/-- The `cluster_indices` local of `_semantic_consensus`. -/
def semClusterIdx (cl : Clusterer) (msgs : List Message) : List Nat :=
  (List.range (semLabels cl msgs).length).filter
    (fun i => (semLabels cl msgs).getD i 0 == semLargest cl msgs)

/-- The `winning_message_index` local of `_semantic_consensus`:
`cluster_indices` at the `argmin` of the distances between the
centroid and the cluster member embeddings. -/
def semWinningIndex (cl : Clusterer) (msgs : List Message) : Nat :=
  (semClusterIdx cl msgs).getD
    (argminIdx (((semClusterIdx cl msgs).map
      (fun i => (semEmbeddings cl msgs).getD i [])).map
      (fun e => sqDist (cl.center (semEmbeddings cl msgs) (chooseK msgs.length)
        (semLargest cl msgs)) e))) 0

/-- Mirror of `ConsensusEngine._semantic_consensus`. -/
def semanticConsensus (cl : Clusterer) (msgs : List Message) : ConsensusResult :=
  if msgs.length = 1 then singleResponse (msgs.headD dummyMessage)
  else
    { final_answer := (msgs.getD (semWinningIndex cl msgs) dummyMessage).content,
      winning_votes := (semClusterIdx cl msgs).length,
      total_votes := msgs.length, consensus_method := "semantic_clustering",
      confidence_score := none }

/-- The local-LLM capabilities used by
`ConsensusEngine._synthesis_consensus`
(`_summarize_with_local_llm` and `_fuse_with_local_llm`). -/
structure Synthesizer where
  summarize : String → String
  fuse : List String → String → String

/-- Mirror of `ConsensusEngine._extract_user_prompt`: the first
message whose sender is `user`, with the two literal fallbacks
(every pydantic `Message` has a `conversation_id` attribute, so a
non-empty list always takes the first fallback). -/
def extract_user_prompt (msgs : List Message) : String :=
  match msgs.find? (fun m => m.sender == "user") with
  | some m => m.content
  | none =>
      if msgs.isEmpty then "User\x27s original question"
      else "User\x27s original question about the topic discussed"

/-- Mirror of `ConsensusEngine._synthesis_consensus`. -/
def synthesisConsensus (syn : Synthesizer) (msgs : List Message) : ConsensusResult :=
  if msgs.length = 1 then singleResponse (msgs.headD dummyMessage)
  else
    let user_prompt := extract_user_prompt msgs
    let agent_responses := msgs.filter (fun m => pyStartsWith m.sender "agent_")
    let summaries := agent_responses.map (fun m => syn.summarize m.content)
    let fused := syn.fuse summaries user_prompt
    { final_answer := fused, winning_votes := agent_responses.length,
      total_votes := msgs.length,
      consensus_method := "local_synthesis_qwen3-0.6b",
      confidence_score := some (9 / 10) }

/-- The `ValueError`s of `ConsensusEngine.reach_consensus`. -/
inductive ConsensusError where
  | emptyInput
  | unknownAlgorithm (alg : String)
deriving DecidableEq, Repr

/-- Mirror of `ConsensusEngine.reach_consensus`: dispatch on the
configured algorithm name. -/
def reachConsensus (algorithm : String) (cl : Clusterer) (syn : Synthesizer)
    (msgs : List Message) : Except ConsensusError ConsensusResult :=
  if msgs.isEmpty then .error .emptyInput
  else if algorithm == "majority_vote" then .ok (majorityVoteConsensus msgs)
  else if algorithm == "semantic" then .ok (semanticConsensus cl msgs)
  else if algorithm == "synthesis" then .ok (synthesisConsensus syn msgs)
  else .error (.unknownAlgorithm algorithm)

/-- Circuit breaker states (`CircuitBreakerState` in
`app/error_handling.py`); `opened` stands for the Python `OPEN`. -/
inductive CBState where
  | closed
  | opened
  | halfOpen
deriving DecidableEq, Repr

/-- Mirror of `CircuitBreakerConfig`. -/
structure CircuitBreakerConfig where
  failure_threshold : Nat
  timeout_seconds : Rat
  success_threshold : Nat
deriving DecidableEq, Repr

/-- Mutable fields of the Python `CircuitBreaker` object. -/
structure CircuitBreaker where
  state : CBState
  failure_count : Nat
  success_count : Nat
  last_failure_time : Option Rat
  state_change_time : Rat
deriving DecidableEq, Repr

/-- `CircuitBreaker._transition_to_open`. -/
def transitionToOpen (cb : CircuitBreaker) (now : Rat) : CircuitBreaker :=
  { cb with state := .opened, state_change_time := now, success_count := 0 }

/-- `CircuitBreaker._transition_to_half_open`. -/
def transitionToHalfOpen (cb : CircuitBreaker) (now : Rat) : CircuitBreaker :=
  { cb with state := .halfOpen, state_change_time := now, success_count := 0 }

/-- `CircuitBreaker._transition_to_closed`. -/
def transitionToClosed (cb : CircuitBreaker) (now : Rat) : CircuitBreaker :=
  { cb with
    state := .closed, state_change_time := now,
    failure_count := 0, success_count := 0 }

/-- `CircuitBreaker.check_state`: in the open state, raise
`CircuitBreakerOpenError` until `timeout_seconds` have elapsed since
the state change, then move to half-open; pass through otherwise. -/
def check_state (cfg : CircuitBreakerConfig) (cb : CircuitBreaker) (now : Rat) :
    Except String CircuitBreaker :=
  match cb.state with
  | .opened =>
      if now - cb.state_change_time ≥ cfg.timeout_seconds then
        .ok (transitionToHalfOpen cb now)
      else .error "circuit breaker open"
  | _ => .ok cb

/-- `CircuitBreaker.record_success`. -/
def record_success (cfg : CircuitBreakerConfig) (cb : CircuitBreaker) (now : Rat) :
    CircuitBreaker :=
  match cb.state with
  | .halfOpen =>
      let cb2 := { cb with success_count := cb.success_count + 1 }
      if cb2.success_count ≥ cfg.success_threshold then transitionToClosed cb2 now else cb2
  | .closed => { cb with failure_count := 0 }
  | .opened => cb

/-- `CircuitBreaker.record_failure`. -/
def record_failure (cfg : CircuitBreakerConfig) (cb : CircuitBreaker) (now : Rat) :
    CircuitBreaker :=
  let cb1 := { cb with last_failure_time := some now }
  match cb1.state with
  | .halfOpen => transitionToOpen cb1 now
  | .closed =>
      let cb2 := { cb1 with failure_count := cb1.failure_count + 1 }
      if cb2.failure_count ≥ cfg.failure_threshold then transitionToOpen cb2 now else cb2
  | .opened => cb1

/-- Mirror of `RetryConfig` in `app/error_handling.py`.  The
`retryable_exceptions` tuple is modelled by the `isRetryableType`
classifier passed to the retry loop. -/
structure RetryConfig where
  max_attempts : Nat
  base_delay : Rat
  max_delay : Rat
  exponential_base : Rat
  jitter : Bool
deriving DecidableEq, Repr

/-- `ErrorHandler._calculate_delay`; `jitterSample` is the drawn
`random.uniform(-1, 1)` scaled by the 10% jitter range. -/
def calculate_delay (config : RetryConfig) (attempt : Nat) (jitterSample : Rat) : Rat :=
  let delay := config.base_delay * config.exponential_base ^ attempt
  let delay := min delay config.max_delay
  let delay := if config.jitter then delay + jitterSample * (delay * (1 / 10)) else delay
  max delay 0

/-- Final state of `ErrorHandler.execute_with_retry`: a returned
value, a re-raised last exception, or the `RuntimeError` raised when
the loop captured no exception at all (`max_attempts = 0`). -/
inductive RetryOutcome (ε α : Type) where
  | success (a : α)
  | failure (e : ε)
  | noCapture
deriving DecidableEq, Repr

/-- Observable result of the retry loop: the outcome, the exceptions
observed in order (the last one is Python `last_exception`), how
often the wrapped operation actually ran, and the final breaker. -/
structure ExecResult (ε α : Type) where
  outcome : RetryOutcome ε α
  trace : List ε
  invocations : Nat
  breaker : Option CircuitBreaker
deriving Repr

/-- Control flow of one iteration of the retry loop: either the
loop terminates with a result (`return` or `break` followed by the
re-raise), or it continues to the next attempt with updated state. -/
inductive StepResult (ε α : Type) where
  | done (r : ExecResult ε α)
  | next (inv : Nat) (tr : List ε) (cb : Option CircuitBreaker)
deriving Repr

/-- The shared `except Exception` block of
`ErrorHandler.execute_with_retry`: record the breaker failure,
remember the exception, break on the last attempt, break on
`NonRetryableError`, break when the exception is not an instance of
`config.retryable_exceptions`, otherwise sleep and continue.
`invAfter` is the invocation count after this attempt (the attempt
consumed no invocation when the pre-check itself raised). -/
def exceptBlock {ε α : Type} (cfg : RetryConfig) (bcfg : CircuitBreakerConfig)
    (isNonRetryable isRetryableType : ε → Bool)
    (times _jitterSample : Nat → Rat) (attempt invAfter : Nat) (tr : List ε)
    (cbCur : Option CircuitBreaker) (e : ε) : StepResult ε α :=
  if attempt = cfg.max_attempts - 1 then
    .done { outcome := .failure e, trace := tr ++ [e], invocations := invAfter,
            breaker := cbCur.map (fun c => record_failure bcfg c (times attempt)) }
  else if isNonRetryable e then
    .done { outcome := .failure e, trace := tr ++ [e], invocations := invAfter,
            breaker := cbCur.map (fun c => record_failure bcfg c (times attempt)) }
  else if !isRetryableType e then
    .done { outcome := .failure e, trace := tr ++ [e], invocations := invAfter,
            breaker := cbCur.map (fun c => record_failure bcfg c (times attempt)) }
  else
    .next invAfter (tr ++ [e])
      (cbCur.map (fun c => record_failure bcfg c (times attempt)))

/-- The `try` body after a passed breaker pre-check: invoke the
operation; on success record it in the breaker and return, on
failure run the `except` block. -/
def runOp {ε α : Type} (cfg : RetryConfig) (bcfg : CircuitBreakerConfig)
    (isNonRetryable isRetryableType : ε → Bool)
    (times jitterSample : Nat → Rat) (op : Nat → Except ε α)
    (attempt inv : Nat) (tr : List ε) (cb2 : Option CircuitBreaker) : StepResult ε α :=
  match op inv with
  | .ok a =>
      .done { outcome := .success a, trace := tr, invocations := inv + 1,
              breaker := cb2.map (fun c => record_success bcfg c (times attempt)) }
  | .error e =>
      exceptBlock cfg bcfg isNonRetryable isRetryableType times jitterSample
        attempt (inv + 1) tr cb2 e

/-- One iteration of `for attempt in range(config.max_attempts)`:
check the breaker (a raised `CircuitBreakerOpenError` is caught by
the same `except` block, consuming the attempt without invoking the
operation), then run the operation. -/
def retryAttempt {ε α : Type} (cfg : RetryConfig) (bcfg : CircuitBreakerConfig)
    (isNonRetryable isRetryableType : ε → Bool) (openErr : ε)
    (times jitterSample : Nat → Rat) (op : Nat → Except ε α)
    (attempt inv : Nat) (tr : List ε) (cb : Option CircuitBreaker) : StepResult ε α :=
  match cb with
  | none =>
      runOp cfg bcfg isNonRetryable isRetryableType times jitterSample op
        attempt inv tr none
  | some c =>
      match check_state bcfg c (times attempt) with
      | .ok c2 =>
          runOp cfg bcfg isNonRetryable isRetryableType times jitterSample op
            attempt inv tr (some c2)
      | .error _ =>
          exceptBlock cfg bcfg isNonRetryable isRetryableType times jitterSample
            attempt inv tr (some c) openErr

/-- The retry loop of `ErrorHandler.execute_with_retry`.  `op i` is
the result of the `(i+1)`-th actual invocation of the wrapped
operation; `times a` is the wall clock at attempt `a`.  When the
loop exits without a captured exception (only possible with
`max_attempts = 0`) the Python code raises a bare `RuntimeError`,
modelled by the `noCapture` outcome. -/
def execLoop {ε α : Type} (cfg : RetryConfig) (bcfg : CircuitBreakerConfig)
    (isNonRetryable isRetryableType : ε → Bool) (openErr : ε)
    (times jitterSample : Nat → Rat) (op : Nat → Except ε α)
    (attempt inv : Nat) (tr : List ε) (cb : Option CircuitBreaker) : ExecResult ε α :=
  if _h : cfg.max_attempts ≤ attempt then
    { outcome := match tr.getLast? with
        | some e => .failure e
        | none => .noCapture,
      trace := tr, invocations := inv, breaker := cb }
  else
    match retryAttempt cfg bcfg isNonRetryable isRetryableType openErr times jitterSample op
        attempt inv tr cb with
    | .done r => r
    | .next inv2 tr2 cb2 =>
        execLoop cfg bcfg isNonRetryable isRetryableType openErr times jitterSample op
          (attempt + 1) inv2 tr2 cb2
termination_by cfg.max_attempts - attempt
decreasing_by omega

/-- `ErrorHandler.execute_with_retry`, started on attempt `0` with
no exception captured. -/
def execute_with_retry {ε α : Type} (cfg : RetryConfig) (bcfg : CircuitBreakerConfig)
    (isNonRetryable isRetryableType : ε → Bool) (openErr : ε)
    (times : Nat → Rat) (jitterSample : Nat → Rat) (op : Nat → Except ε α)
    (cb : Option CircuitBreaker) : ExecResult ε α :=
  execLoop cfg bcfg isNonRetryable isRetryableType openErr times jitterSample op 0 0 [] cb

/-- `SecurityConfig.RATE_LIMIT_REQUESTS`. -/
def RATE_LIMIT_REQUESTS : Nat := 100

/-- `SecurityConfig.RATE_LIMIT_WINDOW` in seconds. -/
def RATE_LIMIT_WINDOW : Rat := 3600

/-- `SecurityConfig.RATE_LIMIT_BURST`. -/
def RATE_LIMIT_BURST : Nat := 10

/-- Mirror of the pydantic `RateLimitInfo` bucket in
`app/security.py`. -/
structure RateLimitInfo where
  requests_made : Nat
  window_start : Rat
  burst_tokens : Nat
  blocked_until : Option Rat
deriving DecidableEq, Repr

/-- The observable result of one `_check_rate_limit_internal` call:
the returned boolean, the mutated bucket, and the `retry_after`
entry of the info dict when the request was rejected. -/
structure RateLimitDecision where
  allowed : Bool
  info : RateLimitInfo
  retry_after : Option Rat
deriving DecidableEq, Repr

/-- The Python truthiness test
`if rate_limit.blocked_until and current_time < rate_limit.blocked_until`
(a stored `0.0` is falsy). -/
def blockedActive (bu : Option Rat) (now : Rat) : Bool :=
  match bu with
  | none => false
  | some b => !(b == 0) && decide (now < b)

/-- Mirror of `SecurityManager._check_rate_limit_internal`. -/
def checkRateLimitInternal (rl0 : RateLimitInfo) (now : Rat) : RateLimitDecision :=
  let rl := if now - rl0.window_start > RATE_LIMIT_WINDOW then
      { requests_made := 0, window_start := now,
        burst_tokens := RATE_LIMIT_BURST, blocked_until := none }
    else rl0
  if blockedActive rl.blocked_until now then
    let b := rl.blocked_until.getD 0
    { allowed := false, info := rl,
      retry_after := some ((Rat.floor (b - now) : Int) : Rat) }
  else if rl.burst_tokens > 0 then
    { allowed := true, info := { rl with burst_tokens := rl.burst_tokens - 1 },
      retry_after := none }
  else if rl.requests_made < RATE_LIMIT_REQUESTS then
    { allowed := true, info := { rl with requests_made := rl.requests_made + 1 },
      retry_after := none }
  else
    let block_duration : Rat := min 300 RATE_LIMIT_WINDOW
    { allowed := false, info := { rl with blocked_until := some (now + block_duration) },
      retry_after := some block_duration }

/-- One raw entry of a Redis stream as `xrevrange` returns it:
every field is a string; `turn` still needs `int()` parsing and
`metadata` still needs `json.loads`. -/
structure RawEntry where
  id : String
  conversation_id : String
  sender : String
  content : String
  turn : String
  timestamp : String
  metadata : String
deriving DecidableEq, Repr

/-- The per-entry `Message(...)` construction inside
`RedisBus.get_conversation_history`; `parseMeta` models
`json.loads`.  A `none` is the caught-and-skipped parse failure. -/
def parseStreamEntry (parseMeta : String → Option (List (String × String)))
    (e : RawEntry) : Option Message :=
  match e.turn.toNat?, parseMeta e.metadata with
  | some t, some md =>
      some { id := e.id, conversation_id := e.conversation_id, sender := e.sender,
             content := e.content, turn := t, timestamp := e.timestamp, metadata := md }
  | _, _ => none

/-- Mirror of `RedisBus.get_conversation_history`: `readStream` is
the outcome of the `xrevrange` call (entries newest first); any
stream-read failure is logged and replaced by the empty list, and
entries that fail to parse are skipped. -/
def get_conversation_history (connected : Bool)
    (readStream : Except String (List (String × RawEntry)))
    (parseMeta : String → Option (List (String × String))) :
    Except String (List Message) :=
  if !connected then .error "Redis not connected"
  else
    match readStream with
    | .error _ => .ok []
    | .ok entries =>
        .ok ((entries.reverse).filterMap (fun p => parseStreamEntry parseMeta p.2))

/-- Mirror of `RedisBus.send_message`: `xadd` is the outcome of the
stream append; its failure is logged and re-raised. -/
def send_message (connected : Bool) (xadd : Except String String) :
    Except String String :=
  if !connected then .error "Redis not connected"
  else
    match xadd with
    | .error e => .error e
    | .ok sid => .ok sid

/-- Errors that abort `Orchestrator.run_conversation`: the
`RuntimeError` raised when a turn produced no valid agent response,
and a propagated consensus `ValueError`. -/
inductive OrchError where
  | noAgentResponses (turn : Nat)
  | consensus (e : ConsensusError)
deriving DecidableEq, Repr

/-- The `valid_responses` filter of the turn loop: of the
`asyncio.gather(..., return_exceptions=True)` results, keep exactly
the values that are `Message`s, dropping the exceptions. -/
def collectValid (results : List (Except String Message)) : List Message :=
  results.filterMap (fun r => match r with | .ok m => some m | .error _ => none)

/-- The `for turn in range(1, n_turns + 1)` loop of
`Orchestrator.run_conversation`.  `agentResults t` is the list of
per-agent outcomes of `_get_agent_response` at turn `t` (one entry
per agent, a raised exception or a built `Message`).  `msgs` is the
accumulated `messages` list, `acc` the `agent_responses` captured at
the final turn.  Returns the accumulated messages and the final-turn
responses, or the abort error. -/
def loopTurns (agentResults : Nat → List (Except String Message)) (n_turns : Nat)
    (msgs acc : List Message) (turn : Nat) :
    Except OrchError (List Message × List Message) :=
  if n_turns < turn then .ok (msgs, acc)
  else if (collectValid (agentResults turn)).isEmpty then .error (.noAgentResponses turn)
  else
    loopTurns agentResults n_turns (msgs ++ collectValid (agentResults turn))
      (if turn = n_turns then collectValid (agentResults turn) else acc) (turn + 1)
termination_by n_turns + 1 - turn
decreasing_by omega

/-- The `user` message written at step 1 of the turn loop (its
random `uuid4` id and wall-clock timestamp are irrelevant to every
claim and are fixed to placeholders). -/
def initialMessage (prompt conversation_id : String) : Message :=
  { id := "msg-user", conversation_id := conversation_id, sender := "user",
    content := prompt, turn := 0, timestamp := "", metadata := [] }

/-- Observable output of `Orchestrator.run_conversation`: the
returned answer and consensus, the `agent_responses` of the final
turn, the `consensus_messages` list handed to the consensus engine,
and the full accumulated `messages` list. -/
structure RunOutput where
  final_answer : String
  agent_responses : List Message
  consensus : ConsensusResult
  consensus_input : List Message
  messages : List Message
  result_total_turns : Nat
  result_total_messages : Nat
deriving Repr

/-- Mirror of `Orchestrator.run_conversation`: write the user
message, run the turn loop, filter the final-turn agent messages,
prepend the user message, run consensus, append the consensus
message and build the result. -/
def runConversation (algorithm : String) (cl : Clusterer) (syn : Synthesizer)
    (prompt conversation_id : String) (n_turns : Nat)
    (agentResults : Nat → List (Except String Message)) : Except OrchError RunOutput :=
  let initial := initialMessage prompt conversation_id
  match loopTurns agentResults n_turns [initial] [] 1 with
  | .error e => .error e
  | .ok (msgs, lastValid) =>
      let finalTurnMessages := msgs.filter
        (fun m => m.turn == n_turns && pyStartsWith m.sender "agent_")
      let consensusMessages := initial :: finalTurnMessages
      match reachConsensus algorithm cl syn consensusMessages with
      | .error e => .error (.consensus e)
      | .ok cr =>
          let consensusMsg : Message :=
            { id := "msg-consensus", conversation_id := conversation_id,
              sender := "consensus", content := cr.final_answer,
              turn := n_turns + 1, timestamp := "", metadata := [] }
          let allMessages := msgs ++ [consensusMsg]
          .ok { final_answer := cr.final_answer, agent_responses := lastValid,
                consensus := cr, consensus_input := consensusMessages,
                messages := allMessages, result_total_turns := n_turns,
                result_total_messages := allMessages.length }

/-- Mirror of `Agent.generate_response` in `app/agent.py`: build the
prompt from the personality and the last ten history messages, call
the model (`llm` is the external Gemini call, indexed by prompt),
and on ANY exception return the fallback string instead of raising. -/
def generate_response (agent_id personality : String) (llm : String → Except String String)
    (history : List Message) : String :=
  let context := ("Agent Personality: " ++ personality ++ "\n") ::
    ((history.drop (history.length - 10)).map (fun m => m.sender ++ ": " ++ m.content)) ++
    ["\nAs " ++ agent_id ++ ", provide your unique perspective on the conversation. " ++
     "Consider the views of other agents but maintain your distinct personality and approach. " ++
     "Provide a complete, thoughtful response that reflects your specific role and expertise. " ++
     "Be thorough and ensure your response is complete - do not cut off mid-thought."]
  let full_prompt := String.intercalate "\n" context
  match llm full_prompt with
  | .ok response => response
  | .error e => "Agent " ++ agent_id ++ " encountered an error: " ++ e


/-! Concrete fixtures used by witnesses and counterexamples. -/

/-- Concrete fixtures used by witnesses and counterexamples. -/
def msgUserQ : Message :=
  { id := "u", conversation_id := "c", sender := "user", content := "q",
    turn := 0, timestamp := "", metadata := [] }

/-- A concrete agent message fixture. -/
def msgAgentA : Message :=
  { id := "a", conversation_id := "c", sender := "agent_0", content := "a",
    turn := 1, timestamp := "", metadata := [] }

/-- A second concrete agent message fixture. -/
def msgAgentB : Message :=
  { id := "b", conversation_id := "c", sender := "agent_1", content := "bb",
    turn := 1, timestamp := "", metadata := [] }

/-- A trivial clusterer fixture (empty embeddings of empty vectors). -/
def clUnit : Clusterer := ⟨fun _ => [], fun _ _ => [], fun _ _ _ => []⟩

/-- A clusterer fixture for two samples, with empty vectors. -/
def clTwo : Clusterer := ⟨fun _ => [[], []], fun _ _ => [0, 0], fun _ _ _ => []⟩

/-- A trivial synthesizer fixture. -/
def synUnit : Synthesizer := ⟨fun s => s, fun _ u => u⟩

/-- A breaker config fixture (the source defaults). -/
def cfgDefault : CircuitBreakerConfig :=
  { failure_threshold := 5, timeout_seconds := 60, success_threshold := 3 }

/-- A closed breaker with four recorded failures. -/
def cbClosed4 : CircuitBreaker :=
  { state := .closed, failure_count := 4, success_count := 0,
    last_failure_time := none, state_change_time := 0 }

/-- An open breaker that changed state at time 0. -/
def cbOpen0 : CircuitBreaker :=
  { state := .opened, failure_count := 5, success_count := 0,
    last_failure_time := some 0, state_change_time := 0 }

/-- The counterexample bucket: burst exhausted and the window limit
reached, inside the current window. -/
def c7Bucket : RateLimitInfo :=
  { requests_made := 100, window_start := 0, burst_tokens := 0, blocked_until := none }

/-- An already-blocked bucket fixture. -/
def c7Blocked : RateLimitInfo :=
  { requests_made := 100, window_start := 0, burst_tokens := 0, blocked_until := some 301 }

/-- A gather-result fixture: one failed agent, one successful. -/
def c1Results : Nat → List (Except String Message) :=
  fun _ => [.error "boom", .ok msgAgentA]

/-- A retry config fixture (the source defaults). -/
def cfgRetry3 : RetryConfig :=
  { max_attempts := 3, base_delay := 1, max_delay := 60, exponential_base := 2, jitter := true }

/-- An always-failing operation fixture. -/
def opFail : Nat → Except String Nat := fun _ => .error "boom"

/-- Two concrete messages with distinct tied ballots. -/
def msgRedWarm : Message :=
  { id := "1", conversation_id := "c", sender := "agent_1",
    content := "Red is warm.", turn := 2, timestamp := "", metadata := [] }

/-- A second concrete tied message. -/
def msgBlue : Message :=
  { id := "2", conversation_id := "c", sender := "agent_2",
    content := "Blue.", turn := 2, timestamp := "", metadata := [] }

/-! Helper lemmas -/

theorem length_pyStripList_le (l : List Char) : (pyStripList l).length ≤ l.length := by
  unfold pyStripList
  calc ((l.dropWhile isPyWhitespace).reverse.dropWhile isPyWhitespace).reverse.length
      = ((l.dropWhile isPyWhitespace).reverse.dropWhile isPyWhitespace).length := by
        rw [List.length_reverse]
    _ ≤ (l.dropWhile isPyWhitespace).reverse.length :=
        ((l.dropWhile isPyWhitespace).reverse.dropWhile_sublist isPyWhitespace).length_le
    _ = (l.dropWhile isPyWhitespace).length := by rw [List.length_reverse]
    _ ≤ l.length := (l.dropWhile_sublist isPyWhitespace).length_le

theorem mem_pyStripList {l : List Char} {c : Char} (h : c ∈ pyStripList l) : c ∈ l := by
  unfold pyStripList at h
  rw [List.mem_reverse] at h
  have h2 := ((l.dropWhile isPyWhitespace).reverse.dropWhile_sublist isPyWhitespace).mem h
  rw [List.mem_reverse] at h2
  exact (l.dropWhile_sublist isPyWhitespace).mem h2


/-! C9 — input sanitisation -/

/-- C9: for every input and `max_length`, `sanitize_text` returns a
string of length at most `max_length` containing no control
character (code point below 32) other than newline, carriage return
and tab, and the empty input yields the empty string. -/
theorem sanitize_text_c9 (text : String) (max_length : Nat) :
    (sanitize_text text max_length).length ≤ max_length ∧
    (∀ c ∈ (sanitize_text text max_length).data, c.toNat < 32 →
      c = '\n' ∨ c = '\r' ∨ c = '\t') ∧
    sanitize_text "" max_length = "" := by
  refine ⟨?_, ?_, by rfl⟩
  · unfold sanitize_text
    by_cases h0 : text = ""
    · simp [h0, String.length]
    · rw [if_neg h0]
      by_cases hl : text.length > max_length
      · rw [if_pos hl]
        show (pyStripList _).length ≤ _
        calc (pyStripList ((text.data.take max_length).filter _)).length
            ≤ ((text.data.take max_length).filter _).length := length_pyStripList_le _
          _ ≤ (text.data.take max_length).length := List.length_filter_le _ _
          _ ≤ max_length := List.length_take_le _ _
      · rw [if_neg hl]
        show (pyStripList _).length ≤ _
        calc (pyStripList (text.data.filter _)).length
            ≤ (text.data.filter _).length := length_pyStripList_le _
          _ ≤ text.data.length := List.length_filter_le _ _
          _ ≤ max_length := by
              have := String.length text
              simp only [String.length] at hl
              omega
  · intro c hc hlt
    unfold sanitize_text at hc
    by_cases h0 : text = ""
    · rw [if_pos h0] at hc
      simp at hc
    · rw [if_neg h0] at hc
      have hkeep : (decide (32 ≤ c.toNat) || ['\n', '\r', '\t'].contains c) = true := by
        by_cases hl : text.length > max_length
        · rw [if_pos hl] at hc
          have := mem_pyStripList hc
          exact (List.mem_filter.1 this).2
        · rw [if_neg hl] at hc
          have := mem_pyStripList hc
          exact (List.mem_filter.1 this).2
      rw [Bool.or_eq_true] at hkeep
      rcases hkeep with h | h
      · exact absurd (of_decide_eq_true h) (by omega)
      · simpa using h

/-- C9 witness: concrete evaluation of the sanitizer. -/
theorem sanitize_text_c9_witness :
    (sanitize_text "ab\x01cd" 3).length ≤ 3 ∧ sanitize_text "" 3 = "" := by
  refine ⟨(sanitize_text_c9 "ab\x01cd" 3).1, (sanitize_text_c9 "ab\x01cd" 3).2.2⟩

/-! C10 — message-bus read path -/

/-- C10: `get_conversation_history` never propagates a stream-read
failure (it returns the empty list), skips entries that fail to
parse, and always returns a list when connected, whereas
`send_message` re-raises the stream-append failure. -/
theorem history_swallows_errors_c10 :
    (∀ (e : String) (parseMeta : String → Option (List (String × String))),
      get_conversation_history true (.error e) parseMeta = .ok []) ∧
    (∀ (entries : List (String × RawEntry)) (parseMeta : String → Option (List (String × String))),
      get_conversation_history true (.ok entries) parseMeta =
        .ok ((entries.reverse).filterMap (fun p => parseStreamEntry parseMeta p.2))) ∧
    (∀ (readStream : Except String (List (String × RawEntry)))
        (parseMeta : String → Option (List (String × String))),
      ∃ l, get_conversation_history true readStream parseMeta = .ok l) ∧
    (∀ e : String, send_message true (.error e) = .error e) := by
  refine ⟨fun e p => rfl, fun entries p => rfl, ?_, fun e => rfl⟩
  intro readStream p
  cases readStream with
  | error e => exact ⟨[], rfl⟩
  | ok entries => exact ⟨_, rfl⟩

/-! C5 — circuit breaker transition relation -/

/-- C5: the circuit breaker transition relation: in Closed state the
`failure_threshold`-th recorded failure opens the breaker and stamps
the state-change time, while a success resets the failure count; in
Open state a check before the timeout rejects, and once
`timeout_seconds` have elapsed the check moves the breaker to
HalfOpen; in HalfOpen, `success_threshold` consecutive successes
close it and any failure re-opens it, resetting the timer. -/
theorem circuit_breaker_c5 (cfg : CircuitBreakerConfig) (cb : CircuitBreaker) (now : Rat) :
    (cb.state = .closed → cfg.failure_threshold ≤ cb.failure_count + 1 →
      (record_failure cfg cb now).state = .opened ∧
      (record_failure cfg cb now).state_change_time = now) ∧
    (cb.state = .closed → cb.failure_count + 1 < cfg.failure_threshold →
      (record_failure cfg cb now).state = .closed ∧
      (record_failure cfg cb now).failure_count = cb.failure_count + 1) ∧
    (cb.state = .closed →
      (record_success cfg cb now).failure_count = 0 ∧
      (record_success cfg cb now).state = .closed) ∧
    (cb.state = .opened → now - cb.state_change_time < cfg.timeout_seconds →
      check_state cfg cb now = .error "circuit breaker open") ∧
    (cb.state = .opened → cfg.timeout_seconds ≤ now - cb.state_change_time →
      check_state cfg cb now = .ok (transitionToHalfOpen cb now) ∧
      (transitionToHalfOpen cb now).state = .halfOpen) ∧
    (cb.state = .halfOpen → cfg.success_threshold ≤ cb.success_count + 1 →
      (record_success cfg cb now).state = .closed) ∧
    (cb.state = .halfOpen → cb.success_count + 1 < cfg.success_threshold →
      (record_success cfg cb now).state = .halfOpen ∧
      (record_success cfg cb now).success_count = cb.success_count + 1) ∧
    (cb.state = .halfOpen →
      (record_failure cfg cb now).state = .opened ∧
      (record_failure cfg cb now).state_change_time = now) := by
  refine ⟨?_, ?_, ?_, ?_, ?_, ?_, ?_, ?_⟩
  · intro hs ht
    simp [record_failure, hs, transitionToOpen, if_pos ht]
  · intro hs ht
    have : ¬ cfg.failure_threshold ≤ cb.failure_count + 1 := by omega
    simp [record_failure, hs, if_neg this]
  · intro hs
    simp [record_success, hs]
  · intro hs ht
    have : ¬ cfg.timeout_seconds ≤ now - cb.state_change_time := not_le.2 ht
    simp [check_state, hs, if_neg this]
  · intro hs ht
    simp [check_state, hs, if_pos ht, transitionToHalfOpen]
  · intro hs ht
    simp [record_success, hs, if_pos ht, transitionToClosed]
  · intro hs ht
    have : ¬ cfg.success_threshold ≤ cb.success_count + 1 := by omega
    simp [record_success, hs, if_neg this]
  · intro hs
    simp [record_failure, hs, transitionToOpen]


/-- C5 witness: the fifth failure opens the breaker and stamps the
time; an open breaker rejects a check before the timeout. -/
theorem circuit_breaker_c5_witness :
    (record_failure cfgDefault cbClosed4 7).state = .opened ∧
    (record_failure cfgDefault cbClosed4 7).state_change_time = 7 ∧
    check_state cfgDefault cbOpen0 30 = .error "circuit breaker open" := by
  refine ⟨((circuit_breaker_c5 cfgDefault cbClosed4 7).1 rfl (by decide)).1,
    ((circuit_breaker_c5 cfgDefault cbClosed4 7).1 rfl (by decide)).2,
    (circuit_breaker_c5 cfgDefault cbOpen0 30).2.2.2.1 rfl (by norm_num [cbOpen0, cfgDefault])⟩

/-! C7 — rate limiter blocking -/


/-- C7 counterexample: at time 1 with the window having started at 0,
the code sets `blocked_until = 1 + min(300, W) = 301`, whereas the
claimed formula `min(now + W, window_start + W)` gives `3600`. -/
theorem rate_limit_c7_counterexample :
    (checkRateLimitInternal c7Bucket 1).allowed = false ∧
    (checkRateLimitInternal c7Bucket 1).info.blocked_until = some 301 ∧
    min ((1 : Rat) + RATE_LIMIT_WINDOW) (0 + RATE_LIMIT_WINDOW) = 3600 ∧
    (301 : Rat) ≠ 3600 := by
  refine ⟨?_, ?_, ?_, by norm_num⟩
  · norm_num [checkRateLimitInternal, c7Bucket, RATE_LIMIT_WINDOW, RATE_LIMIT_REQUESTS,
      blockedActive, min_def]
  · norm_num [checkRateLimitInternal, c7Bucket, RATE_LIMIT_WINDOW, RATE_LIMIT_REQUESTS,
      blockedActive, min_def]
  · norm_num [RATE_LIMIT_WINDOW, min_def]

/-- C7 amended: inside the current window, a request on a bucket with
burst exhausted and the window limit reached is rejected with
`blocked_until = now + min(300, W)` and `retry_after = min(300, W)`;
while `blocked_until` is set, non-zero and in the future, requests
are rejected with `retry_after = int(blocked_until - now)`. -/
theorem rate_limit_block_c7 (rl : RateLimitInfo) (now : Rat)
    (hwin : ¬ now - rl.window_start > RATE_LIMIT_WINDOW) :
    (blockedActive rl.blocked_until now = false → rl.burst_tokens = 0 →
      RATE_LIMIT_REQUESTS ≤ rl.requests_made →
      (checkRateLimitInternal rl now).allowed = false ∧
      (checkRateLimitInternal rl now).info.blocked_until =
        some (now + min 300 RATE_LIMIT_WINDOW) ∧
      (checkRateLimitInternal rl now).retry_after = some (min 300 RATE_LIMIT_WINDOW)) ∧
    (∀ b : Rat, rl.blocked_until = some b → b ≠ 0 → now < b →
      (checkRateLimitInternal rl now).allowed = false ∧
      (checkRateLimitInternal rl now).retry_after = some ((Rat.floor (b - now) : Int) : Rat)) := by
  constructor
  · intro hb hburst hreq
    have hreq2 : ¬ rl.requests_made < RATE_LIMIT_REQUESTS := by omega
    simp only [checkRateLimitInternal, if_neg hwin, hb, Bool.false_eq_true, if_false,
      hburst, gt_iff_lt, lt_irrefl, if_neg hreq2]
    exact ⟨trivial, trivial, trivial⟩
  · intro b hb hb0 hlt
    have hba : blockedActive rl.blocked_until now = true := by
      simp [blockedActive, hb, hb0, hlt]
    simp only [checkRateLimitInternal, if_neg hwin, hba, if_true]
    refine ⟨trivial, ?_⟩
    simp [hb]

/-- C7 witness: concrete rejection with the fresh block, and a
rejection while already blocked. -/
theorem rate_limit_c7_witness :
    (checkRateLimitInternal c7Bucket 1).retry_after = some (min 300 RATE_LIMIT_WINDOW) ∧
    (checkRateLimitInternal c7Blocked 2).retry_after =
      some ((Rat.floor ((301 : Rat) - 2) : Int) : Rat) := by
  refine ⟨((rate_limit_block_c7 c7Bucket 1 (by norm_num [c7Bucket, RATE_LIMIT_WINDOW])).1
    rfl rfl (by decide)).2.2, ?_⟩
  exact ((rate_limit_block_c7 c7Blocked 2 (by norm_num [c7Blocked, RATE_LIMIT_WINDOW])).2
    301 rfl (by norm_num) (by norm_num)).2

/-! C3 — synthesis consensus outcome fields -/

/-- C3 counterexample: under the `synthesis` algorithm the returned
`consensus_method` is the literal `local_synthesis_qwen3-0.6b`, not
`synthesis` as the claim states. -/
theorem synthesis_method_c3_counterexample :
    (reachConsensus "synthesis" clUnit synUnit [msgUserQ, msgAgentA]).toOption.map
      ConsensusResult.consensus_method = some "local_synthesis_qwen3-0.6b" ∧
    some "local_synthesis_qwen3-0.6b" ≠ some "synthesis" := by
  exact ⟨by decide, by decide⟩

/-- C3 amended: for at least two input messages under the synthesis
algorithm, `reach_consensus` returns an outcome whose
`winning_votes` is the number of messages whose sender starts with
`agent_`, whose `total_votes` is the input size, whose method is the
string `local_synthesis_qwen3-0.6b`, and whose confidence is 0.9. -/
theorem synthesis_fields_c3 (cl : Clusterer) (syn : Synthesizer) (msgs : List Message)
    (h2 : 2 ≤ msgs.length) :
    reachConsensus "synthesis" cl syn msgs = .ok (synthesisConsensus syn msgs) ∧
    (synthesisConsensus syn msgs).winning_votes =
      (msgs.filter (fun m => pyStartsWith m.sender "agent_")).length ∧
    (synthesisConsensus syn msgs).total_votes = msgs.length ∧
    (synthesisConsensus syn msgs).consensus_method = "local_synthesis_qwen3-0.6b" ∧
    (synthesisConsensus syn msgs).confidence_score = some (9 / 10) := by
  have hne : ¬ msgs.isEmpty = true := by
    cases msgs with
    | nil => simp at h2
    | cons a as => simp
  have h1 : ¬ msgs.length = 1 := by omega
  refine ⟨?_, ?_, ?_, ?_, ?_⟩
  · simp [reachConsensus, hne]
  all_goals simp [synthesisConsensus, if_neg h1]

/-- C3 witness: the amended field equations at a concrete input. -/
theorem synthesis_fields_c3_witness :
    (synthesisConsensus synUnit [msgUserQ, msgAgentA]).winning_votes =
      ([msgUserQ, msgAgentA].filter (fun m => pyStartsWith m.sender "agent_")).length ∧
    (synthesisConsensus synUnit [msgUserQ, msgAgentA]).consensus_method =
      "local_synthesis_qwen3-0.6b" := by
  exact ⟨(synthesis_fields_c3 clUnit synUnit [msgUserQ, msgAgentA] (by decide)).2.1,
    (synthesis_fields_c3 clUnit synUnit [msgUserQ, msgAgentA] (by decide)).2.2.2.1⟩

/-! C1 — per-agent failures are absorbed by the turn loop -/

theorem loopTurns_error_ge (f : Nat → List (Except String Message)) (n : Nat) :
    ∀ (k t : Nat) (msgs acc : List Message) (u : Nat), n + 1 - t ≤ k →
      loopTurns f n msgs acc t = .error (.noAgentResponses u) → t ≤ u := by
  intro k
  induction k with
  | zero =>
    intro t msgs acc u hk h
    rw [loopTurns, if_pos (by omega : n < t)] at h
    cases h
  | succ k ih =>
    intro t msgs acc u hk h
    rw [loopTurns] at h
    by_cases hn : n < t
    · rw [if_pos hn] at h; cases h
    · rw [if_neg hn] at h
      by_cases hv : (collectValid (f t)).isEmpty = true
      · rw [if_pos hv] at h
        injection h with h2
        injection h2 with h3
        omega
      · rw [if_neg hv] at h
        have := ih (t + 1) _ _ u (by omega) h
        omega

/-- C1: at any turn `t ≤ n` of the conversation loop, the turn
aborts the conversation with the no-agent-responses error for turn
`t` exactly when zero agent calls produced a `Message`; otherwise
the loop continues with exactly the successful replies appended,
the failed agents merely abstaining.  The successful replies are
precisely the non-exception results of the parallel gather. -/
theorem turn_failures_absorbed_c1 (f : Nat → List (Except String Message)) (n t : Nat)
    (msgs acc : List Message) (ht : t ≤ n) :
    (loopTurns f n msgs acc t = .error (.noAgentResponses t) ↔ collectValid (f t) = []) ∧
    (collectValid (f t) ≠ [] →
      loopTurns f n msgs acc t =
        loopTurns f n (msgs ++ collectValid (f t))
          (if t = n then collectValid (f t) else acc) (t + 1)) ∧
    collectValid (f t) = (f t).filterMap Except.toOption := by
  have hn : ¬ n < t := by omega
  refine ⟨⟨?_, ?_⟩, ?_, ?_⟩
  · intro h
    rw [loopTurns, if_neg hn] at h
    by_cases hv : (collectValid (f t)).isEmpty = true
    · exact List.isEmpty_iff.1 hv
    · rw [if_neg hv] at h
      have := loopTurns_error_ge f n (n + 1 - (t + 1)) (t + 1) _ _ t (le_refl _) h
      exact absurd this (by omega)
  · intro h
    rw [loopTurns, if_neg hn, if_pos (by simp [h] : (collectValid (f t)).isEmpty = true)]
  · intro hne
    rw [loopTurns, if_neg hn, if_neg (by simpa [List.isEmpty_iff] using hne)]
  · unfold collectValid
    congr 1
    funext r
    cases r <;> rfl


/-- C1 witness: the abort-iff-no-replies equivalence and the
continuation equation at a concrete turn. -/
theorem turn_failures_absorbed_c1_witness :
    (loopTurns c1Results 2 [] [] 1 = .error (.noAgentResponses 1) ↔
      collectValid (c1Results 1) = []) ∧
    loopTurns c1Results 2 [] [] 1 =
      loopTurns c1Results 2 ([] ++ collectValid (c1Results 1))
        (if 1 = 2 then collectValid (c1Results 1) else []) 2 :=
  ⟨(turn_failures_absorbed_c1 c1Results 2 1 [] [] (by decide)).1,
   (turn_failures_absorbed_c1 c1Results 2 1 [] [] (by decide)).2.1 (by decide)⟩

/-! C8 — zero-turn conversations -/

/-- C8: with `turns = 0` the agent phase is skipped entirely (the
run is independent of the agent results), the consensus input is
exactly the user message, and the outcome is a `single_response`
with one vote out of one, under any of the three configured
algorithms. -/
theorem turns_zero_c8 (algorithm : String) (cl : Clusterer) (syn : Synthesizer)
    (prompt cid : String) (f g : Nat → List (Except String Message))
    (halg : algorithm = "majority_vote" ∨ algorithm = "semantic" ∨ algorithm = "synthesis") :
    runConversation algorithm cl syn prompt cid 0 f =
      runConversation algorithm cl syn prompt cid 0 g ∧
    ∃ out, runConversation algorithm cl syn prompt cid 0 f = .ok out ∧
      out.consensus_input = [initialMessage prompt cid] ∧
      out.consensus.consensus_method = "single_response" ∧
      out.consensus.winning_votes = 1 ∧
      out.consensus.total_votes = 1 := by
  have l0 : ∀ hh : Nat → List (Except String Message),
      loopTurns hh 0 [initialMessage prompt cid] [] 1 =
        .ok ([initialMessage prompt cid], []) := by
    intro hh
    rw [loopTurns]
    norm_num
  have hfilter : ([initialMessage prompt cid].filter
      (fun m => m.turn == (0 : Nat) && pyStartsWith m.sender "agent_")) = [] := by
    have hb : ((initialMessage prompt cid).turn == (0 : Nat) &&
        pyStartsWith (initialMessage prompt cid).sender "agent_") = false := by
      show (((0 : Nat) == (0 : Nat)) && pyStartsWith "user" "agent_") = false
      decide
    simp only [List.filter, hb]
  have hreach : reachConsensus algorithm cl syn [initialMessage prompt cid] =
      .ok (singleResponse (initialMessage prompt cid)) := by
    rcases halg with rfl | rfl | rfl <;>
      simp [reachConsensus, majorityVoteConsensus, semanticConsensus, synthesisConsensus]
  have key : ∀ hh : Nat → List (Except String Message),
      runConversation algorithm cl syn prompt cid 0 hh =
        .ok { final_answer := prompt, agent_responses := [],
              consensus := singleResponse (initialMessage prompt cid),
              consensus_input := [initialMessage prompt cid],
              messages := [initialMessage prompt cid,
                { id := "msg-consensus", conversation_id := cid, sender := "consensus",
                  content := prompt, turn := 1, timestamp := "", metadata := [] }],
              result_total_turns := 0, result_total_messages := 2 } := by
    intro hh
    simp only [runConversation]
    rw [l0 hh]
    simp only [hfilter]
    rw [hreach]
    rfl
  refine ⟨by rw [key f, key g], ⟨_, key f, rfl, rfl, rfl, rfl⟩⟩

/-- C8 witness: a concrete zero-turn conversation. -/
theorem turns_zero_c8_witness :
    runConversation "majority_vote" clUnit synUnit "hi" "c" 0 c1Results =
      runConversation "majority_vote" clUnit synUnit "hi" "c" 0 (fun _ => []) ∧
    ∃ out, runConversation "majority_vote" clUnit synUnit "hi" "c" 0 c1Results = .ok out ∧
      out.consensus_input = [initialMessage "hi" "c"] ∧
      out.consensus.consensus_method = "single_response" ∧
      out.consensus.winning_votes = 1 ∧
      out.consensus.total_votes = 1 :=
  turns_zero_c8 "majority_vote" clUnit synUnit "hi" "c" c1Results (fun _ => [])
    (Or.inl rfl)

/-! C6 — retry loop -/

theorem exceptBlock_spec {ε α : Type} (cfg : RetryConfig) (bcfg : CircuitBreakerConfig)
    (isNR isRT : ε → Bool) (times jit : Nat → Rat) (attempt invAfter : Nat)
    (tr : List ε) (cbCur : Option CircuitBreaker) (e : ε) :
    (∃ r, @exceptBlock ε α cfg bcfg isNR isRT times jit attempt invAfter tr cbCur e =
        .done r ∧ r.outcome = .failure e ∧ r.trace = tr ++ [e] ∧ r.invocations = invAfter) ∨
    (@exceptBlock ε α cfg bcfg isNR isRT times jit attempt invAfter tr cbCur e =
        .next invAfter (tr ++ [e])
          (cbCur.map (fun c => record_failure bcfg c (times attempt))) ∧
      isNR e = false) := by
  unfold exceptBlock
  by_cases h1 : attempt = cfg.max_attempts - 1
  · rw [if_pos h1]
    exact Or.inl ⟨_, rfl, rfl, rfl, rfl⟩
  · rw [if_neg h1]
    by_cases h2 : isNR e = true
    · rw [if_pos h2]
      exact Or.inl ⟨_, rfl, rfl, rfl, rfl⟩
    · rw [if_neg h2]
      by_cases h3 : (!isRT e) = true
      · rw [if_pos h3]
        exact Or.inl ⟨_, rfl, rfl, rfl, rfl⟩
      · rw [if_neg h3]
        exact Or.inr ⟨rfl, by simpa using h2⟩

theorem retryAttempt_spec {ε α : Type} (cfg : RetryConfig) (bcfg : CircuitBreakerConfig)
    (isNR isRT : ε → Bool) (openErr : ε) (times jit : Nat → Rat) (op : Nat → Except ε α)
    (attempt inv : Nat) (tr : List ε) (cb : Option CircuitBreaker) :
    (∃ r, retryAttempt cfg bcfg isNR isRT openErr times jit op attempt inv tr cb = .done r ∧
       r.invocations ≤ inv + 1 ∧
       (((∃ a, r.outcome = .success a ∧ op inv = .ok a) ∧ r.trace = tr) ∨
        (∃ e, r.outcome = .failure e ∧ r.trace = tr ++ [e]))) ∨
    (∃ e inv2 cb2, retryAttempt cfg bcfg isNR isRT openErr times jit op attempt inv tr cb =
        .next inv2 (tr ++ [e]) cb2 ∧ inv2 ≤ inv + 1 ∧ isNR e = false) := by
  have hRun : ∀ cb2 : Option CircuitBreaker,
      (∃ r, runOp cfg bcfg isNR isRT times jit op attempt inv tr cb2 = .done r ∧
         r.invocations ≤ inv + 1 ∧
         (((∃ a, r.outcome = .success a ∧ op inv = .ok a) ∧ r.trace = tr) ∨
          (∃ e, r.outcome = .failure e ∧ r.trace = tr ++ [e]))) ∨
      (∃ e inv2 cb3, runOp cfg bcfg isNR isRT times jit op attempt inv tr cb2 =
          .next inv2 (tr ++ [e]) cb3 ∧ inv2 ≤ inv + 1 ∧ isNR e = false) := by
    intro cb2
    cases hop : op inv with
    | ok a =>
        have heq : runOp cfg bcfg isNR isRT times jit op attempt inv tr cb2 =
            .done { outcome := .success a, trace := tr, invocations := inv + 1,
                    breaker := cb2.map (fun c => record_success bcfg c (times attempt)) } := by
          unfold runOp
          rw [hop]
        exact Or.inl ⟨_, heq, le_refl _, Or.inl ⟨⟨a, rfl, rfl⟩, rfl⟩⟩
    | error e =>
        have heq : runOp cfg bcfg isNR isRT times jit op attempt inv tr cb2 =
            @exceptBlock ε α cfg bcfg isNR isRT times jit attempt (inv + 1) tr cb2 e := by
          unfold runOp
          rw [hop]
        rw [heq]
        rcases @exceptBlock_spec ε α cfg bcfg isNR isRT times jit attempt (inv + 1)
            tr cb2 e with ⟨r, heq2, hout, htr, hinv⟩ | ⟨heq2, hnr⟩
        · exact Or.inl ⟨r, heq2, by omega, Or.inr ⟨e, hout, htr⟩⟩
        · exact Or.inr ⟨e, inv + 1, _, heq2, by omega, hnr⟩
  cases cb with
  | none =>
      have heq : retryAttempt cfg bcfg isNR isRT openErr times jit op attempt inv tr none =
          runOp cfg bcfg isNR isRT times jit op attempt inv tr none := rfl
      rw [heq]
      exact hRun none
  | some c =>
      cases hcs : check_state bcfg c (times attempt) with
      | ok c2 =>
          have heq : retryAttempt cfg bcfg isNR isRT openErr times jit op attempt inv tr
              (some c) = runOp cfg bcfg isNR isRT times jit op attempt inv tr (some c2) := by
            simp only [retryAttempt, hcs]
          rw [heq]
          exact hRun (some c2)
      | error msg =>
          have heq : retryAttempt cfg bcfg isNR isRT openErr times jit op attempt inv tr
              (some c) =
              @exceptBlock ε α cfg bcfg isNR isRT times jit attempt inv tr (some c) openErr := by
            simp only [retryAttempt, hcs]
          rw [heq]
          rcases @exceptBlock_spec ε α cfg bcfg isNR isRT times jit attempt inv
              tr (some c) openErr with ⟨r, heq2, hout, htr, hinv⟩ | ⟨heq2, hnr⟩
          · exact Or.inl ⟨r, heq2, by omega, Or.inr ⟨openErr, hout, htr⟩⟩
          · exact Or.inr ⟨openErr, inv, _, heq2, by omega, hnr⟩

theorem execLoop_stopped {ε α : Type} (cfg : RetryConfig) (bcfg : CircuitBreakerConfig)
    (isNR isRT : ε → Bool) (openErr : ε) (times jit : Nat → Rat) (op : Nat → Except ε α)
    (attempt inv : Nat) (tr : List ε) (cb : Option CircuitBreaker)
    (hge : cfg.max_attempts ≤ attempt) :
    (execLoop cfg bcfg isNR isRT openErr times jit op attempt inv tr cb).invocations = inv ∧
    (execLoop cfg bcfg isNR isRT openErr times jit op attempt inv tr cb).trace = tr ∧
    (∀ e, (execLoop cfg bcfg isNR isRT openErr times jit op attempt inv tr cb).outcome =
        .failure e → tr.getLast? = some e) ∧
    (tr ≠ [] → ∃ e,
      (execLoop cfg bcfg isNR isRT openErr times jit op attempt inv tr cb).outcome =
        .failure e) := by
  rw [execLoop, dif_pos hge]
  refine ⟨rfl, rfl, ?_, ?_⟩
  · intro e he
    have he2 : (match tr.getLast? with
        | some e0 => RetryOutcome.failure e0
        | none => (.noCapture : RetryOutcome ε α)) = .failure e := he
    rcases htr : tr.getLast? with _ | e0
    · rw [htr] at he2
      exact RetryOutcome.noConfusion he2
    · rw [htr] at he2
      have he3 : RetryOutcome.failure (α := α) e0 = .failure e := he2
      injection he3 with h2
      rw [h2]
  · intro hne
    rcases tr.eq_nil_or_concat with rfl | ⟨l, e0, rfl⟩
    · exact absurd rfl hne
    · refine ⟨e0, ?_⟩
      show (match (l.concat e0).getLast? with
        | some e => RetryOutcome.failure e
        | none => (.noCapture : RetryOutcome ε α)) = .failure e0
      rw [List.concat_eq_append, List.getLast?_concat]

theorem execLoop_master {ε α : Type} (cfg : RetryConfig) (bcfg : CircuitBreakerConfig)
    (isNR isRT : ε → Bool) (openErr : ε) (times jit : Nat → Rat) (op : Nat → Except ε α) :
    ∀ (k attempt inv : Nat) (tr : List ε) (cb : Option CircuitBreaker),
      cfg.max_attempts - attempt ≤ k →
      (execLoop cfg bcfg isNR isRT openErr times jit op attempt inv tr cb).invocations ≤
        inv + (cfg.max_attempts - attempt) ∧
      (∀ e, (execLoop cfg bcfg isNR isRT openErr times jit op attempt inv tr cb).outcome =
          .failure e →
        (execLoop cfg bcfg isNR isRT openErr times jit op attempt inv tr cb).trace.getLast? =
          some e) ∧
      ((∀ x ∈ tr, isNR x = false) →
        ∀ e ∈ (execLoop cfg bcfg isNR isRT openErr times jit op attempt inv tr cb).trace,
          isNR e = true →
          (execLoop cfg bcfg isNR isRT openErr times jit op attempt inv tr cb).outcome =
            .failure e ∧
          (execLoop cfg bcfg isNR isRT openErr times jit op attempt inv tr cb).trace.getLast? =
            some e) ∧
      ((tr ≠ [] ∨ attempt < cfg.max_attempts) → (∀ i, ¬ ∃ a, op i = .ok a) →
        ∃ e, (execLoop cfg bcfg isNR isRT openErr times jit op attempt inv tr cb).outcome =
          .failure e) := by
  intro k
  induction k with
  | zero =>
    intro attempt inv tr cb hk
    have hge : cfg.max_attempts ≤ attempt := by omega
    obtain ⟨hinv, htr, hfail, hnonempty⟩ :=
      execLoop_stopped cfg bcfg isNR isRT openErr times jit op attempt inv tr cb hge
    refine ⟨by omega, ?_, ?_, ?_⟩
    · intro e he
      rw [htr]
      exact hfail e he
    · intro htrh e hmem hnr
      rw [htr] at hmem
      exact absurd (htrh e hmem) (by simp [hnr])
    · intro hne _
      rcases hne with hne | hlt
      · exact hnonempty hne
      · exact absurd hlt (by omega)
  | succ k ih =>
    intro attempt inv tr cb hk
    by_cases hge : cfg.max_attempts ≤ attempt
    · obtain ⟨hinv, htr, hfail, hnonempty⟩ :=
        execLoop_stopped cfg bcfg isNR isRT openErr times jit op attempt inv tr cb hge
      refine ⟨by omega, ?_, ?_, ?_⟩
      · intro e he
        rw [htr]
        exact hfail e he
      · intro htrh e hmem hnr
        rw [htr] at hmem
        exact absurd (htrh e hmem) (by simp [hnr])
      · intro hne _
        rcases hne with hne | hlt
        · exact hnonempty hne
        · exact absurd hlt (by omega)
    · rcases retryAttempt_spec cfg bcfg isNR isRT openErr times jit op attempt inv tr cb with
        ⟨r, heq, hinv, hcase⟩ | ⟨e, inv2, cb2, heq, hinv2, hnre⟩
      · have hdone : execLoop cfg bcfg isNR isRT openErr times jit op attempt inv tr cb = r := by
          rw [execLoop, dif_neg hge, heq]
        rw [hdone]
        refine ⟨by omega, ?_, ?_, ?_⟩
        · intro e he
          rcases hcase with ⟨⟨a, hsucc, _⟩, _⟩ | ⟨e0, hout, htr⟩
          · rw [hsucc] at he
            exact RetryOutcome.noConfusion he
          · rw [hout] at he
            injection he with h2
            subst h2
            rw [htr, List.getLast?_concat]
        · intro htrh e hmem hnr
          rcases hcase with ⟨⟨a, hsucc, _⟩, htr⟩ | ⟨e0, hout, htr⟩
          · rw [htr] at hmem
            exact absurd (htrh e hmem) (by simp [hnr])
          · rw [htr] at hmem
            rcases List.mem_append.1 hmem with hmem | hmem
            · exact absurd (htrh e hmem) (by simp [hnr])
            · rcases List.mem_singleton.1 hmem with rfl
              exact ⟨hout, by rw [htr, List.getLast?_concat]⟩
        · intro _ hopfail
          rcases hcase with ⟨⟨a, _, hop⟩, _⟩ | ⟨e0, hout, htr⟩
          · exact absurd ⟨a, hop⟩ (hopfail inv)
          · exact ⟨e0, hout⟩
      · have hstep : execLoop cfg bcfg isNR isRT openErr times jit op attempt inv tr cb =
            execLoop cfg bcfg isNR isRT openErr times jit op (attempt + 1) inv2
              (tr ++ [e]) cb2 := by
          rw [execLoop, dif_neg hge, heq]
        rw [hstep]
        have hrec := ih (attempt + 1) inv2 (tr ++ [e]) cb2 (by omega)
        refine ⟨by have h1 := hrec.1; omega, hrec.2.1, ?_, ?_⟩
        · intro htrh
          refine hrec.2.2.1 ?_
          intro x hx
          rcases List.mem_append.1 hx with hx | hx
          · exact htrh x hx
          · rcases List.mem_singleton.1 hx with rfl
            exact hnre
        · intro _ hopfail
          exact hrec.2.2.2 (Or.inl (by simp)) hopfail

/-- C6: `execute_with_retry` invokes the wrapped operation at most
`max_attempts` times; whenever it re-raises, the re-raised exception
is the last one observed; a `NonRetryableError` is always the final
observed exception (no further attempt follows it) and is the one
re-raised; and if `max_attempts > 0` and every invocation fails, the
call ends by re-raising a failure. -/
theorem execute_with_retry_c6 {ε α : Type} (cfg : RetryConfig) (bcfg : CircuitBreakerConfig)
    (isNR isRT : ε → Bool) (openErr : ε) (times jit : Nat → Rat) (op : Nat → Except ε α)
    (cb : Option CircuitBreaker) :
    (execute_with_retry cfg bcfg isNR isRT openErr times jit op cb).invocations ≤
      cfg.max_attempts ∧
    (∀ e, (execute_with_retry cfg bcfg isNR isRT openErr times jit op cb).outcome = .failure e →
      (execute_with_retry cfg bcfg isNR isRT openErr times jit op cb).trace.getLast? = some e) ∧
    (∀ e ∈ (execute_with_retry cfg bcfg isNR isRT openErr times jit op cb).trace,
      isNR e = true →
      (execute_with_retry cfg bcfg isNR isRT openErr times jit op cb).outcome = .failure e ∧
      (execute_with_retry cfg bcfg isNR isRT openErr times jit op cb).trace.getLast? = some e) ∧
    (0 < cfg.max_attempts → (∀ i, ¬ ∃ a, op i = .ok a) →
      ∃ e, (execute_with_retry cfg bcfg isNR isRT openErr times jit op cb).outcome =
        .failure e) := by
  have h := execLoop_master cfg bcfg isNR isRT openErr times jit op
    cfg.max_attempts 0 0 [] cb (by omega)
  refine ⟨by simpa using h.1, h.2.1, ?_, ?_⟩
  · exact h.2.2.1 (by intro x hx; cases hx)
  · intro hpos hfail
    exact h.2.2.2 (Or.inr (by omega)) hfail


/-- C6 witness: three attempts, all failing, with no breaker. -/
theorem execute_with_retry_c6_witness :
    (execute_with_retry cfgRetry3 cfgDefault (fun s => s == "nr") (fun _ => true) "open"
      (fun _ => 0) (fun _ => 0) opFail none).invocations ≤ cfgRetry3.max_attempts ∧
    ∃ e, (execute_with_retry cfgRetry3 cfgDefault (fun s => s == "nr") (fun _ => true) "open"
      (fun _ => 0) (fun _ => 0) opFail none).outcome = .failure e :=
  ⟨(execute_with_retry_c6 cfgRetry3 cfgDefault (fun s => s == "nr") (fun _ => true) "open"
      (fun _ => 0) (fun _ => 0) opFail none).1,
   (execute_with_retry_c6 cfgRetry3 cfgDefault (fun s => s == "nr") (fun _ => true) "open"
      (fun _ => 0) (fun _ => 0) opFail none).2.2.2 (by decide)
      (fun i h => by rcases h with ⟨a, ha⟩; cases ha)⟩

/-! Sorting and counting lemmas for the majority vote -/

theorem mem_insertLE {α : Type} (le : α → α → Bool) (a x : α) :
    ∀ l : List α, (x ∈ insertLE le a l ↔ x = a ∨ x ∈ l) := by
  intro l
  induction l with
  | nil => simp [insertLE]
  | cons b bs ih =>
    unfold insertLE
    by_cases h : le a b = true
    · rw [if_pos h]
      simp [List.mem_cons]
    · rw [if_neg h]
      simp only [List.mem_cons, ih]
      tauto

theorem mem_insertionSort {α : Type} (le : α → α → Bool) (x : α) :
    ∀ l : List α, (x ∈ insertionSort le l ↔ x ∈ l) := by
  intro l
  induction l with
  | nil => simp [insertionSort]
  | cons a as ih =>
    show x ∈ insertLE le a (insertionSort le as) ↔ _
    rw [mem_insertLE le a x, ih]
    simp [List.mem_cons]

theorem pairwise_insertLE {α : Type} {le : α → α → Bool}
    (htot : ∀ a b, le a b = true ∨ le b a = true)
    (htrans : ∀ a b c, le a b = true → le b c = true → le a c = true) (a : α) :
    ∀ l : List α, l.Pairwise (fun x y => le x y = true) →
      (insertLE le a l).Pairwise (fun x y => le x y = true) := by
  intro l
  induction l with
  | nil =>
    intro _
    simp [insertLE]
  | cons b bs ih =>
    intro hp
    rcases List.pairwise_cons.1 hp with ⟨hb, hbs⟩
    unfold insertLE
    by_cases h : le a b = true
    · rw [if_pos h]
      refine List.pairwise_cons.2 ⟨?_, hp⟩
      intro x hx
      rcases List.mem_cons.1 hx with rfl | hx
      · exact h
      · exact htrans a b x h (hb x hx)
    · rw [if_neg h]
      refine List.pairwise_cons.2 ⟨?_, ih hbs⟩
      intro x hx
      rcases (mem_insertLE le a x bs).1 hx with rfl | hx
      · rcases htot x b with h1 | h1
        · exact absurd h1 h
        · exact h1
      · exact hb x hx

theorem pairwise_insertionSort {α : Type} {le : α → α → Bool}
    (htot : ∀ a b, le a b = true ∨ le b a = true)
    (htrans : ∀ a b c, le a b = true → le b c = true → le a c = true) :
    ∀ l : List α, (insertionSort le l).Pairwise (fun x y => le x y = true) := by
  intro l
  induction l with
  | nil => simp [insertionSort]
  | cons a as ih => exact pairwise_insertLE htot htrans a _ ih

theorem headD_mem {α : Type} {l : List α} (d : α) (h : l ≠ []) : l.headD d ∈ l := by
  cases l with
  | nil => exact absurd rfl h
  | cons a as => exact List.mem_cons_self a as

theorem insertionSort_ne_nil {α : Type} (le : α → α → Bool) {l : List α} (h : l ≠ []) :
    insertionSort le l ≠ [] := by
  intro hnil
  cases l with
  | nil => exact h rfl
  | cons a as =>
    have ha : a ∈ insertionSort le (a :: as) :=
      (mem_insertionSort le a _).2 (List.mem_cons_self a as)
    rw [hnil] at ha
    cases ha

theorem insertionSort_headD_mem {α : Type} (le : α → α → Bool) (l : List α) (d : α)
    (h : l ≠ []) : (insertionSort le l).headD d ∈ l :=
  (mem_insertionSort le _ l).1 (headD_mem d (insertionSort_ne_nil le h))

theorem insertionSort_headD_min {α : Type} {le : α → α → Bool}
    (htot : ∀ a b, le a b = true ∨ le b a = true)
    (htrans : ∀ a b c, le a b = true → le b c = true → le a c = true)
    (l : List α) (d x : α) (hx : x ∈ l) :
    le ((insertionSort le l).headD d) x = true := by
  have hmem : x ∈ insertionSort le l := (mem_insertionSort le x l).2 hx
  have hp := pairwise_insertionSort htot htrans l
  cases hs : insertionSort le l with
  | nil => rw [hs] at hmem; cases hmem
  | cons h0 t =>
    rw [hs] at hmem hp
    rcases List.mem_cons.1 hmem with rfl | hmem
    · rcases htot x x with h1 | h1
      · exact h1
      · exact h1
    · exact (List.pairwise_cons.1 hp).1 x hmem

theorem tieKeyLE_iff (a b : Message) :
    tieKeyLE a b = true ↔
      (b.content.length < a.content.length ∨
        (a.content.length = b.content.length ∧ a.content ≤ b.content)) := by
  simp [tieKeyLE, Bool.or_eq_true, Bool.and_eq_true, decide_eq_true_eq]

theorem tieKeyLE_total (a b : Message) : tieKeyLE a b = true ∨ tieKeyLE b a = true := by
  rw [tieKeyLE_iff, tieKeyLE_iff]
  rcases lt_trichotomy a.content.length b.content.length with h | h | h
  · exact Or.inr (Or.inl h)
  · rcases le_total a.content b.content with h2 | h2
    · exact Or.inl (Or.inr ⟨h, h2⟩)
    · exact Or.inr (Or.inr ⟨h.symm, h2⟩)
  · exact Or.inl (Or.inl h)

theorem tieKeyLE_trans (a b c : Message) (h1 : tieKeyLE a b = true)
    (h2 : tieKeyLE b c = true) : tieKeyLE a c = true := by
  rw [tieKeyLE_iff] at h1 h2 ⊢
  rcases h1 with h1 | ⟨h1e, h1le⟩
  · rcases h2 with h2 | ⟨h2e, h2le⟩
    · exact Or.inl (by omega)
    · exact Or.inl (by omega)
  · rcases h2 with h2 | ⟨h2e, h2le⟩
    · exact Or.inl (by omega)
    · exact Or.inr ⟨by omega, le_trans h1le h2le⟩

theorem tieKeyLE_antisymm_content (a b : Message) (h1 : tieKeyLE a b = true)
    (h2 : tieKeyLE b a = true) : a.content = b.content := by
  rw [tieKeyLE_iff] at h1 h2
  rcases h1 with h1 | ⟨h1e, h1le⟩
  · rcases h2 with h2 | ⟨h2e, h2le⟩
    · omega
    · omega
  · rcases h2 with h2 | ⟨h2e, h2le⟩
    · omega
    · exact le_antisymm h1le h2le

theorem tieSort_headD_content_eq (l1 l2 : List Message)
    (hmem : ∀ x, x ∈ l1 ↔ x ∈ l2) (hne : l1 ≠ []) :
    ((insertionSort tieKeyLE l1).headD dummyMessage).content =
      ((insertionSort tieKeyLE l2).headD dummyMessage).content := by
  have hne2 : l2 ≠ [] := by
    cases l1 with
    | nil => exact absurd rfl hne
    | cons a as => exact List.ne_nil_of_mem ((hmem a).1 (List.mem_cons_self a as))
  have m1 : (insertionSort tieKeyLE l1).headD dummyMessage ∈ l1 :=
    insertionSort_headD_mem _ _ _ hne
  have m2 : (insertionSort tieKeyLE l2).headD dummyMessage ∈ l2 :=
    insertionSort_headD_mem _ _ _ hne2
  exact tieKeyLE_antisymm_content _ _
    (insertionSort_headD_min tieKeyLE_total tieKeyLE_trans l1 dummyMessage _ ((hmem _).2 m2))
    (insertionSort_headD_min tieKeyLE_total tieKeyLE_trans l2 dummyMessage _ ((hmem _).1 m1))

theorem mem_firstUniques {α : Type} [DecidableEq α] (x : α) :
    ∀ l : List α, (x ∈ firstUniques l ↔ x ∈ l) := by
  intro l
  induction l with
  | nil => simp [firstUniques]
  | cons a as ih =>
    show x ∈ a :: (firstUniques as).filter (fun y => y != a) ↔ _
    simp only [List.mem_cons, List.mem_filter, ih, bne_iff_ne]
    constructor
    · rintro (rfl | ⟨h, _⟩)
      · exact Or.inl rfl
      · exact Or.inr h
    · rintro (rfl | h)
      · exact Or.inl rfl
      · by_cases hxa : x = a
        · exact Or.inl hxa
        · exact Or.inr ⟨h, hxa⟩

theorem le_foldl_max_init (l : List Nat) : ∀ acc : Nat, acc ≤ l.foldl max acc := by
  induction l with
  | nil => intro acc; exact le_refl acc
  | cons a as ih =>
    intro acc
    exact le_trans (le_max_left acc a) (ih (max acc a))

theorem le_foldl_max_of_mem (l : List Nat) :
    ∀ x : Nat, x ∈ l → ∀ acc : Nat, x ≤ l.foldl max acc := by
  induction l with
  | nil => intro x hx; cases hx
  | cons a as ih =>
    intro x hx acc
    rcases List.mem_cons.1 hx with rfl | hx2
    · exact le_trans (le_max_right acc x) (le_foldl_max_init as (max acc x))
    · exact ih x hx2 (max acc a)

theorem foldl_max_eq_init_or_mem (l : List Nat) :
    ∀ acc : Nat, l.foldl max acc = acc ∨ l.foldl max acc ∈ l := by
  induction l with
  | nil => intro acc; exact Or.inl rfl
  | cons a as ih =>
    intro acc
    rcases ih (max acc a) with h | h
    · rcases max_choice acc a with hm | hm
      · exact Or.inl (by show as.foldl max (max acc a) = acc; rw [h, hm])
      · refine Or.inr ?_
        show as.foldl max (max acc a) ∈ a :: as
        rw [h, hm]
        exact List.mem_cons_self a as
    · exact Or.inr (List.mem_cons_of_mem a h)

theorem exists_ballot_maxVotes (msgs : List Message) (hne : msgs ≠ []) :
    ∃ b ∈ ballotsOf msgs, (ballotsOf msgs).count b = maxVotes msgs := by
  have hbl : ballotsOf msgs ≠ [] := by
    cases msgs with
    | nil => exact absurd rfl hne
    | cons a as => simp [ballotsOf]
  rcases foldl_max_eq_init_or_mem
      ((ballotsOf msgs).map fun b => (ballotsOf msgs).count b) 0 with h | h
  · exfalso
    obtain ⟨b, hb⟩ := List.exists_mem_of_ne_nil _ hbl
    have h1 : (ballotsOf msgs).count b ≤ maxVotes msgs :=
      le_foldl_max_of_mem ((ballotsOf msgs).map fun x => (ballotsOf msgs).count x)
        ((ballotsOf msgs).count b)
        (List.mem_map_of_mem (fun x => (ballotsOf msgs).count x) hb) 0
    have h0 : maxVotes msgs = 0 := h
    have h2 : (ballotsOf msgs).count b ≠ 0 := by
      intro hc
      exact (List.count_eq_zero.1 hc) hb
    omega
  · rcases List.mem_map.1 h with ⟨b, hb, hcount⟩
    exact ⟨b, hb, hcount⟩

theorem mem_topOptions {msgs : List Message} {b : String} :
    b ∈ topOptions msgs ↔
      b ∈ ballotsOf msgs ∧ (ballotsOf msgs).count b = maxVotes msgs := by
  unfold topOptions
  rw [List.mem_filter, mem_firstUniques]
  simp [beq_iff_eq]

theorem topOptions_ne_nil (msgs : List Message) (hne : msgs ≠ []) :
    topOptions msgs ≠ [] := by
  obtain ⟨b, hb, hc⟩ := exists_ballot_maxVotes msgs hne
  exact List.ne_nil_of_mem (mem_topOptions.2 ⟨hb, hc⟩)

theorem mem_tieCandidates {msgs : List Message} {x : Message} :
    x ∈ tieCandidates msgs ↔ x ∈ msgs ∧ ballot x ∈ topOptions msgs := by
  unfold tieCandidates
  rw [List.mem_flatMap]
  constructor
  · rintro ⟨o, ho, hx⟩
    rcases List.mem_filter.1 hx with ⟨hxm, hb⟩
    have hbo : ballot x = o := by simpa [beq_iff_eq] using hb
    exact ⟨hxm, hbo ▸ ho⟩
  · rintro ⟨hxm, hb⟩
    exact ⟨ballot x, hb, List.mem_filter.2 ⟨hxm, by simp⟩⟩

theorem exists_message_with_ballot {msgs : List Message} {o : String}
    (ho : o ∈ ballotsOf msgs) : ∃ m ∈ msgs, ballot m = o := by
  rcases List.mem_map.1 ho with ⟨m, hm, hmo⟩
  exact ⟨m, hm, hmo⟩

theorem tieCandidates_ne_nil (msgs : List Message) (hne : msgs ≠ []) :
    tieCandidates msgs ≠ [] := by
  obtain ⟨b, hb, hc⟩ := exists_ballot_maxVotes msgs hne
  obtain ⟨m, hm, hmb⟩ := exists_message_with_ballot hb
  refine List.ne_nil_of_mem (mem_tieCandidates.2 ⟨hm, ?_⟩)
  rw [hmb]
  exact mem_topOptions.2 ⟨hb, hc⟩

theorem getD_mem_or {α : Type} (l : List α) (n : Nat) (d : α) :
    l.getD n d ∈ l ∨ l.getD n d = d := by
  induction l generalizing n with
  | nil => exact Or.inr rfl
  | cons a as ih =>
    cases n with
    | zero => exact Or.inl (List.mem_cons_self a as)
    | succ n =>
      rcases ih n with h | h
      · exact Or.inl (List.mem_cons_of_mem a h)
      · exact Or.inr h

theorem getD_mem_of_lt {α : Type} (l : List α) (n : Nat) (d : α) (h : n < l.length) :
    l.getD n d ∈ l := by
  induction l generalizing n with
  | nil => simp at h
  | cons a as ih =>
    cases n with
    | zero => exact List.mem_cons_self a as
    | succ n => exact List.mem_cons_of_mem a (ih n (by simpa using h))

/-! C2 — majority-vote tie-break -/

/-- C2: with at least two messages and at least two distinct tied
ballots at the maximal count, the majority vote returns the full
content of the first message under the (descending length,
ascending content) order among the messages whose ballot is tied —
regardless of the grouped order in which the code assembles the
candidates — with `winning_votes` the maximal ballot count and
`total_votes` the input size. -/
theorem majority_tiebreak_c2 (msgs : List Message)
    (h2 : 2 ≤ msgs.length) (htie : 2 ≤ (topOptions msgs).length) :
    (majorityVoteConsensus msgs).final_answer = (specTiebreakWinner msgs).content ∧
    (majorityVoteConsensus msgs).winning_votes = maxVotes msgs ∧
    (majorityVoteConsensus msgs).total_votes = msgs.length := by
  have hne : msgs ≠ [] := by
    intro h
    rw [h] at h2
    simp at h2
  have hlen1 : ¬ msgs.length = 1 := by omega
  have htop1 : ¬ (topOptions msgs).length = 1 := by omega
  have heq : majorityVoteConsensus msgs =
      { final_answer := ((insertionSort tieKeyLE (tieCandidates msgs)).headD
          dummyMessage).content,
        winning_votes := maxVotes msgs, total_votes := msgs.length,
        consensus_method := "majority_vote_with_tiebreak", confidence_score := none } := by
    unfold majorityVoteConsensus
    rw [if_neg hlen1, if_neg htop1]
  rw [heq]
  refine ⟨?_, rfl, rfl⟩
  show ((insertionSort tieKeyLE (tieCandidates msgs)).headD dummyMessage).content = _
  unfold specTiebreakWinner
  apply tieSort_headD_content_eq
  · intro x
    rw [mem_tieCandidates, List.mem_filter]
    constructor
    · rintro ⟨hx, hb⟩
      refine ⟨hx, ?_⟩
      show (topOptions msgs).contains (ballot x) = true
      exact List.elem_iff.2 hb
    · rintro ⟨hx, hb⟩
      exact ⟨hx, List.elem_iff.1 hb⟩
  · exact tieCandidates_ne_nil msgs hne


/-- C2 witness: two messages with distinct ballots, each counted
once, resolved by the tie-break. -/
theorem majority_tiebreak_c2_witness :
    (majorityVoteConsensus [msgRedWarm, msgBlue]).final_answer =
      (specTiebreakWinner [msgRedWarm, msgBlue]).content ∧
    (majorityVoteConsensus [msgRedWarm, msgBlue]).winning_votes =
      maxVotes [msgRedWarm, msgBlue] ∧
    (majorityVoteConsensus [msgRedWarm, msgBlue]).total_votes = 2 :=
  majority_tiebreak_c2 [msgRedWarm, msgBlue] (by decide) (by decide)

/-! C4 — consensus answers are verbatim inputs -/

/-- C4: for every non-empty input, the Majority and SemanticCluster
algorithms return as `final_answer` the verbatim content of one of
the input messages (for the semantic algorithm, under the sklearn
contract that `labels_` has one entry per sample). -/
theorem consensus_verbatim_c4 (msgs : List Message) (cl : Clusterer) (hne : msgs ≠ [])
    (hlab : (semLabels cl msgs).length = msgs.length) :
    (majorityVoteConsensus msgs).final_answer ∈ msgs.map Message.content ∧
    (semanticConsensus cl msgs).final_answer ∈ msgs.map Message.content := by
  constructor
  · by_cases hlen1 : msgs.length = 1
    · rcases List.length_eq_one.1 hlen1 with ⟨m, rfl⟩
      simp [majorityVoteConsensus, singleResponse]
    · by_cases htop1 : (topOptions msgs).length = 1
      · have heq : majorityVoteConsensus msgs =
            { final_answer := ((msgs.filter
                (fun m => ballot m == (topOptions msgs).headD "")).headD
                  dummyMessage).content,
              winning_votes := maxVotes msgs, total_votes := msgs.length,
              consensus_method := "majority_vote_with_tiebreak",
              confidence_score := none } := by
          unfold majorityVoteConsensus
          rw [if_neg hlen1, if_pos htop1]
        rw [heq]
        rcases List.length_eq_one.1 htop1 with ⟨o, ho⟩
        have hom : o ∈ topOptions msgs := by
          rw [ho]
          exact List.mem_cons_self o []
        obtain ⟨m, hm, hmb⟩ := exists_message_with_ballot (mem_topOptions.1 hom).1
        have hflt : msgs.filter (fun m => ballot m == (topOptions msgs).headD "") ≠ [] := by
          refine List.ne_nil_of_mem (l := msgs.filter _) (List.mem_filter.2 ⟨hm, ?_⟩)
          rw [ho]
          simp [hmb]
        have hhead := headD_mem dummyMessage hflt
        have hmem := (List.mem_filter.1 hhead).1
        exact List.mem_map_of_mem Message.content hmem
      · have heq : majorityVoteConsensus msgs =
            { final_answer := ((insertionSort tieKeyLE (tieCandidates msgs)).headD
                dummyMessage).content,
              winning_votes := maxVotes msgs, total_votes := msgs.length,
              consensus_method := "majority_vote_with_tiebreak",
              confidence_score := none } := by
          unfold majorityVoteConsensus
          rw [if_neg hlen1, if_neg htop1]
        rw [heq]
        have hhead := insertionSort_headD_mem tieKeyLE (tieCandidates msgs) dummyMessage
          (tieCandidates_ne_nil msgs hne)
        exact List.mem_map_of_mem Message.content (mem_tieCandidates.1 hhead).1
  · by_cases hlen1 : msgs.length = 1
    · rcases List.length_eq_one.1 hlen1 with ⟨m, rfl⟩
      simp [semanticConsensus, singleResponse]
    · have heq : semanticConsensus cl msgs =
          { final_answer := (msgs.getD (semWinningIndex cl msgs) dummyMessage).content,
            winning_votes := (semClusterIdx cl msgs).length,
            total_votes := msgs.length, consensus_method := "semantic_clustering",
            confidence_score := none } := by
        unfold semanticConsensus
        rw [if_neg hlen1]
      rw [heq]
      have hwlt : semWinningIndex cl msgs < msgs.length := by
        rcases getD_mem_or (semClusterIdx cl msgs)
            (argminIdx (((semClusterIdx cl msgs).map
              (fun i => (semEmbeddings cl msgs).getD i [])).map
              (fun e => sqDist (cl.center (semEmbeddings cl msgs) (chooseK msgs.length)
                (semLargest cl msgs)) e))) 0 with hmem | h0
        · have := List.mem_filter.1 hmem
          have hrange := List.mem_range.1 this.1
          show semWinningIndex cl msgs < msgs.length
          unfold semWinningIndex
          omega
        · show semWinningIndex cl msgs < msgs.length
          unfold semWinningIndex
          rw [h0]
          cases hm : msgs with
          | nil => exact absurd hm hne
          | cons a as => simp
      exact List.mem_map_of_mem Message.content
        (getD_mem_of_lt msgs (semWinningIndex cl msgs) dummyMessage hwlt)

/-- C4 witness: concrete evaluation for both algorithms on a
two-message input, with a concrete clusterer. -/
theorem consensus_verbatim_c4_witness :
    (majorityVoteConsensus [msgAgentA, msgAgentB]).final_answer ∈
      [msgAgentA, msgAgentB].map Message.content ∧
    (semanticConsensus clTwo [msgAgentA, msgAgentB]).final_answer ∈
      [msgAgentA, msgAgentB].map Message.content :=
  consensus_verbatim_c4 [msgAgentA, msgAgentB] clTwo (by decide) (by decide)

end PolyAgents
